import Mathlib

/-!
Shallow embedding of the MapD (OmniSci) backend slice of the ibis dialect
compiler: the `MapDSelect` clause formatters, the `MapDTableSetFormatter`
join rendering and predicate validation from `ibis/mapd/compiler.py`, and
the schema/type discovery and pymapd parameter binding from
`ibis/mapd/client.py`.  Python strings become `String`, Python ints become
`Int`/`Nat`, dict lookups become `Option`-valued functions, raised
exceptions become `Except` errors.
-/

namespace IbisMapD

/-! ## MapDSelect.format_group_by (compiler.py lines 77-98)

`format_group_by` reads `self.group_by` (a list of named column
expressions, rendered via `expr.get_name()`) and `self.having` (a list of
predicate expressions rendered via `self._translate`).  We model the
group-by entries by their names and keep the having entries abstract,
passing the base-class `_translate` as a function argument `tr`. -/

def format_group_by {α : Type} (tr : α → String) (group_by : List String)
    (having : List α) : Option String :=
  -- `if not self.group_by: return None`
  if group_by.isEmpty then
    none
  else
    let lines : List String :=
      ["GROUP BY " ++ String.intercalate ", " group_by]
    let lines :=
      if having.isEmpty then lines
      else lines ++ ["HAVING " ++ String.intercalate " AND " (having.map tr)]
    some (String.intercalate "\n" lines)

/-! ## MapDSelect.format_limit (compiler.py lines 100-111) -/

structure LimitSpec where
  n : Int
  offset : Option Int
deriving Repr, DecidableEq

def format_limit (limit : Option LimitSpec) : Option String :=
  match limit with
  | none => none
  | some l =>
    let base := "LIMIT " ++ toString l.n
    match l.offset with
    | none => some base
    | some o => if o ≠ 0 then some (base ++ ", " ++ toString o) else some base

/-! ## MapDTableSetFormatter (compiler.py lines 114-169)

Join predicates are expression nodes; the formatter inspects them with
`isinstance(op, ops.Equals)` and reads the column names of the two sides
via `get_name()`.  We model a predicate operation as either an `Equals`
node over two named column references or some other (non-equality)
comparison node over two named column references. -/

structure Column where
  name : String
deriving Repr, DecidableEq

inductive PredOp where
  | equals (l r : Column)
  | greater (l r : Column)
deriving Repr, DecidableEq

def PredOp.is_equals : PredOp → Bool
  | .equals _ _ => true
  | .greater _ _ => false

def PredOp.same_named : PredOp → Bool
  | .equals l r => l.name == r.name
  | .greater _ _ => false

/-- MapDTableSetFormatter._validate_join_predicates (lines 150-162): every
predicate must be an `Equals` node, else `TranslationError` with the
non-equality message; both sides of an equality must have the same column
name, else `TranslationError` with the different-column-names message. -/
def _validate_join_predicates : List PredOp → Except String Unit
  | [] => .ok ()
  | p :: rest =>
    match p with
    | .greater _ _ => .error "Non-equality join predicates are not supported"
    | .equals l r =>
      if l.name ≠ r.name then
        .error "Joining on different column names is not supported"
      else
        _validate_join_predicates rest

/-- MapDTableSetFormatter._format_predicate (lines 164-166): render a
predicate as the name of its first argument (`op().args[0].get_name()`). -/
def _format_predicate : PredOp → String
  | .equals l _ => l.name
  | .greater l _ => l.name

/-- Modelled from the spec: the base formatter indents join lines by one
level of two spaces (`self.indent`, defined in the base
`TableSetFormatter`, which is not part of this source slice). -/
def indent_width : Nat := 2

def spaces (n : Nat) : String := String.mk (List.replicate n ' ')

/-- Modelled from the spec: `util.indent(text, n)` (base library, not in
this source slice) prefixes the rendered line with `n` spaces; join-step
and USING lines are single lines. -/
def util_indent (text : String) (n : Nat) : String := spaces n ++ text

/-- MapDTableSetFormatter.get_result (lines 123-148), rendering phase: the
base `_walk_join_tree` has flattened the join tree into `join_tables`
(anchor first), `join_types` (one keyword per later table) and
`join_predicates` (one predicate list per later table); the loop zips the
three and appends each join step to the string buffer. -/
def table_set_get_result (join_tables : List String)
    (join_types : List String) (join_predicates : List (List PredOp)) :
    String :=
  match join_tables with
  | [] => ""
  | t0 :: rest =>
    (join_types.zip (rest.zip join_predicates)).foldl
      (fun buf step =>
        let buf := buf ++ "\n" ++
          util_indent (step.1 ++ " " ++ step.2.1) indent_width
        if step.2.2.length ≠ 0 then
          buf ++ "\n" ++
            util_indent
              ("USING " ++
                String.intercalate ", " (step.2.2.map _format_predicate))
              (indent_width * 2)
        else buf)
      t0

/-- Text contributed by one join step to the rendered table set: the join
keyword and table indented one level, then — when the step has predicates
— a USING clause indented two levels listing the column names in
predicate order. -/
def join_step_text (step : String × String × List PredOp) : String :=
  "\n" ++ spaces 2 ++ step.1 ++ " " ++ step.2.1 ++
    (if step.2.2 ≠ [] then
      "\n" ++ spaces 4 ++ "USING " ++
        String.intercalate ", " (step.2.2.map _format_predicate)
    else "")

/-- Rendering following the claim literally: the USING clause written as
`USING (<cols>)`, with parentheses around the column list. -/
def join_step_text_claim (step : String × String × List PredOp) : String :=
  "\n" ++ spaces 2 ++ step.1 ++ " " ++ step.2.1 ++
    (if step.2.2 ≠ [] then
      "\n" ++ spaces 4 ++ "USING (" ++
        String.intercalate ", " (step.2.2.map _format_predicate) ++ ")"
    else "")

end IbisMapD

namespace IbisMapD

theorem intercalate_singleton (s a : String) :
    String.intercalate s [a] = a := by
  simp [String.intercalate, String.intercalate.go]

theorem intercalate_pair (s a b : String) :
    String.intercalate s [a, b] = a ++ s ++ b := by
  simp [String.intercalate, String.intercalate.go]

/-- C1: the claim states that with an empty group-by list and a non-empty
having list, serialization renders no GROUP BY clause but still emits
HAVING.  In the code, `format_group_by` returns `None` as soon as
`self.group_by` is empty, so the having predicates are dropped entirely:
at the concrete select with `group_by = []` and `having = ["f > 1"]` no
clause at all is produced. -/
theorem format_group_by_empty_counterexample :
    ¬ ∃ s, format_group_by (fun t : String => t) [] ["f > 1"] = some s := by
  intro ⟨s, h⟩
  simp [format_group_by] at h

/-- C1 (amended): when the group-by list is empty, `format_group_by`
returns no clause at all — the having list is ignored; when the group-by
list is non-empty, it renders `GROUP BY` over the column names and, if the
having list is non-empty, appends a `HAVING` line with the translated
predicates joined by ' AND '. -/
theorem format_group_by_spec {α : Type} (tr : α → String) (g : String)
    (gs : List String) (having : List α) :
    format_group_by tr [] having = none ∧
    (having = [] →
      format_group_by tr (g :: gs) having =
        some ("GROUP BY " ++ String.intercalate ", " (g :: gs))) ∧
    (having ≠ [] →
      format_group_by tr (g :: gs) having =
        some ("GROUP BY " ++ String.intercalate ", " (g :: gs) ++
          "\nHAVING " ++ String.intercalate " AND " (having.map tr))) := by
  refine ⟨by simp [format_group_by], ?_, ?_⟩
  · intro h
    subst h
    simp [format_group_by, intercalate_singleton]
  · intro h
    simp [format_group_by, List.isEmpty_iff, h, intercalate_pair,
      String.append_assoc]
    rw [← String.append_assoc "\n" "HAVING "]
    rfl

/-- C1 (amended) witness at concrete inputs. -/
theorem format_group_by_spec_witness :
    format_group_by (fun t : String => t) [] ["f > 1"] = none ∧
    format_group_by (fun t : String => t) ["g"] ["f > 1"] =
      some ("GROUP BY g\nHAVING f > 1") := by
  refine ⟨(format_group_by_spec (fun t : String => t) "g" [] ["f > 1"]).1, ?_⟩
  have h := (format_group_by_spec (fun t : String => t) "g" [] ["f > 1"]).2.2
    (by simp)
  simpa using h

/-- C5: `format_limit` renders no clause when no limit is set, exactly
`LIMIT n` when the offset is absent or zero, and `LIMIT n, offset` when
the offset is non-zero. -/
theorem format_limit_spec (n offset : Int) :
    format_limit none = none ∧
    format_limit (some ⟨n, none⟩) = some ("LIMIT " ++ toString n) ∧
    format_limit (some ⟨n, some 0⟩) = some ("LIMIT " ++ toString n) ∧
    (offset ≠ 0 →
      format_limit (some ⟨n, some offset⟩) =
        some ("LIMIT " ++ toString n ++ ", " ++ toString offset)) := by
  refine ⟨rfl, rfl, by simp [format_limit], fun h => by simp [format_limit, h]⟩

/-- C5 witness: `limit(5)` renders `LIMIT 5`, `limit(5, offset=10)`
renders `LIMIT 5, 10`, `limit(5, offset=0)` renders `LIMIT 5`. -/
theorem format_limit_spec_witness :
    format_limit (some ⟨5, none⟩) = some "LIMIT 5" ∧
    format_limit (some ⟨5, some 10⟩) = some "LIMIT 5, 10" ∧
    format_limit (some ⟨5, some 0⟩) = some "LIMIT 5" := by
  have h := format_limit_spec 5 10
  exact ⟨h.2.1, h.2.2.2 (by decide), h.2.2.1⟩

theorem foldl_str_shift : ∀ (l : List String) (a : String),
    l.foldl (fun r s => r ++ s) a = a ++ l.foldl (fun r s => r ++ s) ""
  | [], a => by simp
  | x :: xs, a => by
    simp only [List.foldl_cons]
    rw [foldl_str_shift xs (a ++ x), foldl_str_shift xs ("" ++ x)]
    rw [String.empty_append, String.append_assoc]

theorem join_cons_str (x : String) (xs : List String) :
    String.join (x :: xs) = x ++ String.join xs := by
  simp only [String.join, List.foldl_cons]
  rw [String.empty_append, foldl_str_shift xs x]

theorem foldl_append_join {α : Type} (g : α → String) :
    ∀ (l : List α) (a : String),
      l.foldl (fun b x => b ++ g x) a = a ++ String.join (l.map g)
  | [], a => by simp [String.join]
  | x :: xs, a => by
    have ih := foldl_append_join g xs (a ++ g x)
    simp only [List.foldl_cons, List.map_cons] at ih ⊢
    rw [ih, join_cons_str, String.append_assoc]

/-- C2 (amended): the rendered table set is the anchor table followed, for
each join step, by a newline, the join keyword and table indented one
level and, when the step has predicates, a newline and a `USING <cols>`
clause (no parentheses) indented two levels, the column names in
predicate order. -/
theorem table_set_get_result_spec (t0 : String) (rest : List String)
    (join_types : List String) (join_predicates : List (List PredOp)) :
    table_set_get_result (t0 :: rest) join_types join_predicates =
      t0 ++ String.join
        ((join_types.zip (rest.zip join_predicates)).map join_step_text) := by
  simp only [table_set_get_result]
  rw [List.foldl_ext _ (fun b x => b ++ join_step_text x)]
  · exact foldl_append_join join_step_text _ t0
  · intro a step _
    rcases step with ⟨jt, tbl, preds⟩
    by_cases h : preds = []
    · simp [h, join_step_text, util_indent, indent_width, String.append_assoc]
    · have hlen : preds.length ≠ 0 := by
        simpa [List.length_eq_zero] using h
      simp [h, hlen, join_step_text, util_indent, indent_width,
        String.append_assoc]

/-- C2: the claim renders each step's predicate clause as `USING (<cols>)`
with parentheses; the code writes `'USING ' + ', '.join(...)` without
parentheses.  At the concrete two-table inner join on `foo_id` the code
produces `USING foo_id`, not the parenthesized clause the claim states. -/
theorem table_set_get_result_counterexample :
    table_set_get_result ["star1", "star2"] ["JOIN"]
        [[.equals ⟨"foo_id"⟩ ⟨"foo_id"⟩]] =
      "star1\n  JOIN star2\n    USING foo_id" ∧
    table_set_get_result ["star1", "star2"] ["JOIN"]
        [[.equals ⟨"foo_id"⟩ ⟨"foo_id"⟩]] ≠
      "star1" ++
        join_step_text_claim ("JOIN", "star2",
          [.equals ⟨"foo_id"⟩ ⟨"foo_id"⟩]) := by
  constructor
  · decide
  · decide

/-- C3: join-predicate validation rejects any predicate list containing a
non-equality predicate with a `TranslationError`; when every predicate is
an equality, it rejects a list containing an equality over differently
named columns with the different-column-names `TranslationError`; and a
list of same-named equality predicates passes.  The validation never
inspects the join type, so this holds for every join type. -/
theorem validate_join_predicates_spec (preds : List PredOp) :
    ((∃ p ∈ preds, p.is_equals = false) →
      ∃ msg, _validate_join_predicates preds = .error msg) ∧
    ((∀ p ∈ preds, p.is_equals = true) →
      (∃ p ∈ preds, p.same_named = false) →
      _validate_join_predicates preds =
        .error "Joining on different column names is not supported") ∧
    ((∀ p ∈ preds, p.same_named = true) →
      _validate_join_predicates preds = .ok ()) := by
  induction preds with
  | nil =>
    refine ⟨?_, ?_, fun _ => rfl⟩
    · rintro ⟨p, hp, -⟩
      cases hp
    · rintro - ⟨p, hp, -⟩
      cases hp
  | cons p rest ih =>
    refine ⟨?_, ?_, ?_⟩
    · rintro ⟨q, hq, hne⟩
      cases p with
      | greater l r => exact ⟨_, rfl⟩
      | equals l r =>
        by_cases hname : l.name = r.name
        · rcases List.mem_cons.mp hq with rfl | hq'
          · simp [PredOp.is_equals] at hne
          · have ⟨msg, hmsg⟩ := ih.1 ⟨q, hq', hne⟩
            exact ⟨msg, by simpa [_validate_join_predicates, hname] using hmsg⟩
        · exact ⟨"Joining on different column names is not supported",
            by simp [_validate_join_predicates, hname]⟩
    · intro hall hex
      have hp := hall p (List.mem_cons_self p rest)
      cases p with
      | greater l r => simp [PredOp.is_equals] at hp
      | equals l r =>
        by_cases hname : l.name = r.name
        · rcases hex with ⟨q, hq, hqf⟩
          rcases List.mem_cons.mp hq with rfl | hq'
          · simp [PredOp.same_named, hname] at hqf
          · have := ih.2.1 (fun x hx => hall x (List.mem_cons_of_mem _ hx))
              ⟨q, hq', hqf⟩
            simpa [_validate_join_predicates, hname] using this
        · simp [_validate_join_predicates, hname]
    · intro hall
      have hp := hall p (List.mem_cons_self p rest)
      cases p with
      | greater l r => simp [PredOp.same_named] at hp
      | equals l r =>
        have hname : l.name = r.name := by
          simpa [PredOp.same_named] using hp
        have := ih.2.2 (fun x hx => hall x (List.mem_cons_of_mem _ hx))
        simpa [_validate_join_predicates, hname] using this

/-- C3 witness: a non-equality predicate fails, a differently named
equality fails with the different-column-names message, and two same-named
equalities pass. -/
theorem validate_join_predicates_spec_witness :
    (∃ msg, _validate_join_predicates
      [.greater ⟨"a"⟩ ⟨"a"⟩] = .error msg) ∧
    _validate_join_predicates [.equals ⟨"a"⟩ ⟨"b"⟩] =
      .error "Joining on different column names is not supported" ∧
    _validate_join_predicates
      [.equals ⟨"a"⟩ ⟨"a"⟩, .equals ⟨"c"⟩ ⟨"c"⟩] = .ok () := by
  refine ⟨(validate_join_predicates_spec _).1
      ⟨.greater ⟨"a"⟩ ⟨"a"⟩, by simp, by decide⟩,
    (validate_join_predicates_spec _).2.1 (by decide)
      ⟨.equals ⟨"a"⟩ ⟨"b"⟩, by simp, by decide⟩,
    (validate_join_predicates_spec _).2.2 (by decide)⟩

end IbisMapD

namespace IbisMapD

/-! ## Type discovery (client.py lines 365-409)

A backend field descriptor carries a name, a type tag (`field_type`), a
mode, and — for RECORD fields — a list of sub-fields.  `_discover_type`
maps a descriptor to an ibis type; Python exceptions raised on the way
(the `assert fields` on an empty RECORD) become `Except` errors.  An
unknown tag is looked up with `.get(tag, tag)` twice, so it falls through
both dictionaries unchanged: the `raw` constructor records a tag returned
as-is (the Python function returns the tag string itself). -/

inductive IbisType where
  | int64
  | double
  | boolean
  | string
  | date
  | time
  | timestamp
  | binary
  | array (value_type : IbisType)
  | struct (names : List String) (types : List IbisType)
  | raw (tag : String)

inductive Field where
  | mk (name : String) (field_type : String) (mode : String)
      (fields : List Field)

def Field.name : Field → String
  | .mk n _ _ _ => n

inductive DiscErr where
  | assertionFailed

/-- client.py lines 379-383: the legacy tag dictionary. -/
def _LEGACY_TO_STANDARD : String → Option String
  | "INTEGER" => some "INT64"
  | "FLOAT" => some "FLOAT64"
  | "BOOLEAN" => some "BOOL"
  | _ => none

/-- client.py lines 365-376: the standard tag dictionary. -/
def _DTYPE_TO_IBIS_TYPE : String → Option IbisType
  | "INT64" => some .int64
  | "FLOAT64" => some .double
  | "BOOL" => some .boolean
  | "STRING" => some .string
  | "DATE" => some .date
  | "DATETIME" => some .timestamp
  | "TIME" => some .time
  | "TIMESTAMP" => some .timestamp
  | "BYTES" => some .binary
  | _ => none

mutual

/-- client.py lines 386-399: `_discover_type`. -/
def _discover_type : Field → Except DiscErr IbisType
  | .mk _ ft mode fs =>
    if ft = "RECORD" then
      match fs with
      | [] => .error .assertionFailed
      | _ :: _ =>
        match _discover_fields fs with
        | .error e => .error e
        | .ok ts =>
          let t := IbisType.struct (fs.map Field.name) ts
          .ok (if mode = "REPEATED" then .array t else t)
    else
      let t1 := (_LEGACY_TO_STANDARD ft).getD ft
      let t :=
        match _DTYPE_TO_IBIS_TYPE t1 with
        | some ty => ty
        | none => .raw t1
      .ok (if mode = "REPEATED" then .array t else t)

def _discover_fields : List Field → Except DiscErr (List IbisType)
  | [] => .ok []
  | f :: fs =>
    match _discover_type f with
    | .error e => .error e
    | .ok t =>
      match _discover_fields fs with
      | .error e => .error e
      | .ok ts => .ok (t :: ts)

end

def NATIVE_PARTITION_COL : String := "_PARTITIONTIME"

/-- Name-type pairs of the declared columns, in declaration order
(client.py line 403). -/
def _discover_pairs : List Field → Except DiscErr (List (String × IbisType))
  | [] => .ok []
  | f :: fs =>
    match _discover_type f with
    | .error e => .error e
    | .ok t =>
      match _discover_pairs fs with
      | .error e => .error e
      | .ok ps => .ok ((f.name, t) :: ps)

/-- A backend table as seen by `pymapd_table_to_ibis_schema`: its declared
field descriptors, and the outcome of calling `table.list_partitions()`
(either a returned list or a raised exception). -/
structure PymapdTable where
  schema : List Field
  list_partitions : Except Unit (List String)

/-- client.py lines 402-409: `pymapd_table_to_ibis_schema`.  The final
`ibis.schema(pairs)` call is outside this source slice; per the spec a
Schema is the ordered name-to-type mapping, so the result is the ordered
pair list. -/
def pymapd_table_to_ibis_schema (t : PymapdTable) :
    Except DiscErr (List (String × IbisType)) :=
  match _discover_pairs t.schema with
  | .error e => .error e
  | .ok pairs =>
    match t.list_partitions with
    | .ok l =>
      if l.isEmpty then .ok pairs
      else .ok (pairs ++ [(NATIVE_PARTITION_COL, .timestamp)])
    | .error _ => .ok pairs

end IbisMapD

namespace IbisMapD

/-- C4: the claim states that a field descriptor whose tag is none of the
known legacy or standard tags makes type inference fail with
`UnsupportedTypeError`.  In the code both dictionary lookups default to
the tag itself (`.get(typ, typ)`), so the unknown tag `FOO` is passed
through unchanged and no error is raised. -/
theorem discover_type_unknown_counterexample :
    _discover_type (.mk "x" "FOO" "NULLABLE" []) = .ok (.raw "FOO") ∧
    ¬∃ e, _discover_type (.mk "x" "FOO" "NULLABLE" []) = .error e := by
  refine ⟨rfl, ?_⟩
  rintro ⟨e, he⟩
  rw [show _discover_type (.mk "x" "FOO" "NULLABLE" []) = .ok (.raw "FOO")
    from rfl] at he
  cases he

/-- C4 (amended): a field descriptor whose tag is not RECORD and not one
of the known legacy or standard tags is passed through: `_discover_type`
returns the tag itself (wrapped in an array type for REPEATED mode)
instead of failing. -/
theorem discover_type_unknown_tag (name tag mode : String) (fs : List Field)
    (hrec : tag ≠ "RECORD") (hleg : _LEGACY_TO_STANDARD tag = none)
    (hdt : _DTYPE_TO_IBIS_TYPE tag = none) :
    _discover_type (.mk name tag mode fs) =
      .ok (if mode = "REPEATED" then .array (.raw tag) else .raw tag) := by
  simp [_discover_type, hrec, hleg, hdt]

/-- C4 (amended) witness at the unknown tag `FOO`. -/
theorem discover_type_unknown_tag_witness :
    _discover_type (.mk "x" "FOO" "NULLABLE" []) = .ok (.raw "FOO") ∧
    _discover_type (.mk "x" "FOO" "REPEATED" []) =
      .ok (.array (.raw "FOO")) := by
  constructor
  · simpa using
      discover_type_unknown_tag "x" "FOO" "NULLABLE" [] (by decide) rfl rfl
  · simpa using
      discover_type_unknown_tag "x" "FOO" "REPEATED" [] (by decide) rfl rfl

/-- C10: schema inference appends one timestamp column named
`_PARTITIONTIME` after all declared columns exactly when
`list_partitions()` returns a non-empty result; an empty result adds
nothing, and a raised exception is swallowed and the schema is built from
the declared fields alone. -/
theorem pymapd_table_to_ibis_schema_spec (t : PymapdTable)
    (pairs : List (String × IbisType))
    (h : _discover_pairs t.schema = .ok pairs) :
    (∀ l, t.list_partitions = .ok l → l ≠ [] →
      pymapd_table_to_ibis_schema t =
        .ok (pairs ++ [(NATIVE_PARTITION_COL, .timestamp)])) ∧
    (t.list_partitions = .ok [] →
      pymapd_table_to_ibis_schema t = .ok pairs) ∧
    (∀ e, t.list_partitions = .error e →
      pymapd_table_to_ibis_schema t = .ok pairs) := by
  refine ⟨?_, ?_, ?_⟩
  · intro l hl hne
    simp [pymapd_table_to_ibis_schema, h, hl, List.isEmpty_iff, hne]
  · intro hl
    simp [pymapd_table_to_ibis_schema, h, hl]
  · intro e he
    simp [pymapd_table_to_ibis_schema, h, he]

/-- C10 witness: a table with one INT64 column and one partition gains the
partition column; the same table with a raising `list_partitions` keeps
only the declared column. -/
theorem pymapd_table_to_ibis_schema_spec_witness :
    pymapd_table_to_ibis_schema
        ⟨[.mk "a" "INT64" "NULLABLE" []], .ok ["p0"]⟩ =
      .ok [("a", .int64), ("_PARTITIONTIME", .timestamp)] ∧
    pymapd_table_to_ibis_schema
        ⟨[.mk "a" "INT64" "NULLABLE" []], .error ()⟩ =
      .ok [("a", .int64)] := by
  constructor
  · simpa [NATIVE_PARTITION_COL] using
      (pymapd_table_to_ibis_schema_spec
        ⟨[.mk "a" "INT64" "NULLABLE" []], .ok ["p0"]⟩
        [("a", .int64)] rfl).1 ["p0"] rfl (by simp)
  · exact
      (pymapd_table_to_ibis_schema_spec
        ⟨[.mk "a" "INT64" "NULLABLE" []], .error ()⟩
        [("a", .int64)] rfl).2.2 () rfl

end IbisMapD

namespace IbisMapD

/-! ## Parameter binding (client.py lines 188-255)

The date/timestamp binders go through `pandas.Timestamp`.  We model a
timestamp value by its wall-clock reading (minutes since the epoch on its
own clock) plus an optional UTC offset in minutes (`none` for a
timezone-naive value).  `pd.Timestamp(value, tz='UTC')` localizes a naive
value as UTC and converts an aware value to UTC; `pd.Timestamp(value)`
without a tz keeps the value as parsed; `.date()` truncates to the
wall-clock day. -/

structure PDTimestamp where
  wall : Int
  offset : Option Int
deriving Repr, DecidableEq

/-- Model of `pd.Timestamp(value, tz='UTC')`: a naive value is stamped as
UTC, an aware value is converted to UTC. -/
def pd_Timestamp_utc (v : PDTimestamp) : PDTimestamp :=
  match v.offset with
  | none => ⟨v.wall, some 0⟩
  | some o => ⟨v.wall - o, some 0⟩

/-- Model of `pd.Timestamp(value)` with no tz argument: the parsed value
keeps its own offset (or stays naive). -/
def pd_Timestamp (v : PDTimestamp) : PDTimestamp := v

/-- Model of `.date()`: the wall-clock day of the value (floor division of
the wall-clock minutes by the minutes per day). -/
def to_date (v : PDTimestamp) : Int := v.wall.fdiv 1440

/-- The UTC instant an aware value denotes, `none` for a naive value. -/
def instant (v : PDTimestamp) : Option Int :=
  v.offset.map (fun o => v.wall - o)

/-- The runtime value shapes accepted by the timestamp binder: a string
(parsed by pandas to a possibly-aware timestamp), a `datetime.datetime`,
or a `datetime.date` (a day number). -/
inductive TsInput where
  | str (v : PDTimestamp)
  | dtime (v : PDTimestamp)
  | datev (d : Int)
deriving Repr, DecidableEq

/-- What `pd.Timestamp` parses each input shape to: strings and datetimes
carry their own wall clock and offset; a date is naive midnight. -/
def ts_input_val : TsInput → PDTimestamp
  | .str v => v
  | .dtime v => v
  | .datev d => ⟨d * 1440, none⟩

inductive EncodedValue where
  | timestampVal (v : PDTimestamp)
  | dateVal (d : Int)
deriving Repr, DecidableEq

structure ScalarQueryParameter where
  name : String
  type_tag : String
  value : EncodedValue
deriving Repr, DecidableEq

/-- client.py lines 210-220: `pymapd_param_timestamp`, registered for
string, datetime and date values: bind
`pd.Timestamp(value, tz='UTC').to_pydatetime()` under tag TIMESTAMP. -/
def pymapd_param_timestamp (name : String) (value : TsInput) :
    ScalarQueryParameter :=
  ⟨name, "TIMESTAMP", .timestampVal (pd_Timestamp_utc (ts_input_val value))⟩

/-- client.py lines 253-255: `pymapd_param_date`, registered for
`datetime.date` values: direct bind under tag DATE. -/
def pymapd_param_date (name : String) (d : Int) : ScalarQueryParameter :=
  ⟨name, "DATE", .dateVal d⟩

/-- client.py lines 243-245: `pymapd_param_date_string` re-binds
`pd.Timestamp(value).to_pydatetime().date()` — note: no `tz='UTC'`. -/
def pymapd_param_date_string (name : String) (v : PDTimestamp) :
    ScalarQueryParameter :=
  pymapd_param_date name (to_date (pd_Timestamp v))

/-- client.py lines 248-250: `pymapd_param_date_datetime` re-binds
`value.date()` directly. -/
def pymapd_param_date_datetime (name : String) (v : PDTimestamp) :
    ScalarQueryParameter :=
  pymapd_param_date name (to_date v)

/-- Following the claim's words for the date binder: first normalize the
value via the timestamp normalization (to a UTC-qualified instant), then
truncate to a pure date. -/
def date_binding_claim (name : String) (v : PDTimestamp) :
    ScalarQueryParameter :=
  pymapd_param_date name (to_date (pd_Timestamp_utc v))

end IbisMapD

namespace IbisMapD

/-- C7: for every string, date or datetime value, the timestamp binder
produces a parameter tagged TIMESTAMP whose encoded value is the input
normalized to a UTC-qualified instant: the result carries offset UTC+0,
denotes the same instant as an aware input, and reads a naive input's
wall clock as UTC. -/
theorem pymapd_param_timestamp_spec (name : String) (v : TsInput) :
    (pymapd_param_timestamp name v).type_tag = "TIMESTAMP" ∧
    ∃ w, (pymapd_param_timestamp name v).value = .timestampVal w ∧
      w.offset = some 0 ∧
      (∀ o, (ts_input_val v).offset = some o →
        instant w = instant (ts_input_val v)) ∧
      ((ts_input_val v).offset = none → w.wall = (ts_input_val v).wall) := by
  refine ⟨rfl, pd_Timestamp_utc (ts_input_val v), rfl, ?_, ?_, ?_⟩
  · cases h : (ts_input_val v).offset <;> simp [pd_Timestamp_utc, h]
  · intro o ho
    simp [pd_Timestamp_utc, instant, ho]
  · intro ho
    simp [pd_Timestamp_utc, ho]

/-- C7 witness: an aware string value (23:00 at UTC-5 on day 0) binds as
the UTC instant 04:00 on day 1, and a naive datetime binds with its wall
clock stamped as UTC. -/
theorem pymapd_param_timestamp_spec_witness :
    pymapd_param_timestamp "p" (.str ⟨1380, some (-300)⟩) =
      ⟨"p", "TIMESTAMP", .timestampVal ⟨1680, some 0⟩⟩ ∧
    (pymapd_param_timestamp "p" (.dtime ⟨1380, none⟩)).value =
      .timestampVal ⟨1380, some 0⟩ := by
  have h := pymapd_param_timestamp_spec "p" (.str ⟨1380, some (-300)⟩)
  exact ⟨by simp [pymapd_param_timestamp, pd_Timestamp_utc, ts_input_val,
      h.1], by decide⟩

/-- C6: the claim states the date binder normalizes a string or datetime
value via the same timestamp normalization used for timestamp
placeholders (to a UTC-qualified instant) and then truncates to a date.
The code parses a string with `pd.Timestamp(value)` — without `tz='UTC'`
— and truncates a datetime with `.date()` directly, so an aware value
bound at 23:00 UTC-5 on day 0 yields day 0, while the claimed
normalization yields day 1. -/
theorem pymapd_param_date_counterexample :
    pymapd_param_date_string "p" ⟨1380, some (-300)⟩ =
      pymapd_param_date "p" 0 ∧
    pymapd_param_date_datetime "p" ⟨1380, some (-300)⟩ =
      pymapd_param_date "p" 0 ∧
    date_binding_claim "p" ⟨1380, some (-300)⟩ = pymapd_param_date "p" 1 ∧
    pymapd_param_date_string "p" ⟨1380, some (-300)⟩ ≠
      date_binding_claim "p" ⟨1380, some (-300)⟩ ∧
    pymapd_param_date_datetime "p" ⟨1380, some (-300)⟩ ≠
      date_binding_claim "p" ⟨1380, some (-300)⟩ := by
  refine ⟨by decide, by decide, by decide, by decide, by decide⟩

/-- C6 (amended): the date binder truncates a string or datetime value to
its own wall-clock date — the string is parsed without UTC qualification
and the datetime is truncated directly — and a date value binds directly;
on timezone-naive values this agrees with the claimed
normalize-to-UTC-then-truncate route. -/
theorem pymapd_param_date_spec (name : String) (v : PDTimestamp) (d : Int) :
    pymapd_param_date_string name v = pymapd_param_date name (to_date v) ∧
    pymapd_param_date_datetime name v =
      pymapd_param_date name (to_date v) ∧
    pymapd_param_date name d = ⟨name, "DATE", .dateVal d⟩ ∧
    (v.offset = none →
      pymapd_param_date_string name v = date_binding_claim name v) := by
  refine ⟨rfl, rfl, rfl, ?_⟩
  intro h
  simp [pymapd_param_date_string, date_binding_claim, pd_Timestamp,
    pd_Timestamp_utc, to_date, h]

/-- C6 (amended) witness at a naive value: both the code path and the
claimed route bind day 0 for 23:00 naive on day 0. -/
theorem pymapd_param_date_spec_witness :
    pymapd_param_date_string "p" ⟨1380, none⟩ = pymapd_param_date "p" 0 ∧
    pymapd_param_date_string "p" ⟨1380, none⟩ =
      date_binding_claim "p" ⟨1380, none⟩ := by
  refine ⟨?_, (pymapd_param_date_spec "p" ⟨1380, none⟩ 0).2.2.2 rfl⟩
  rw [(pymapd_param_date_spec "p" ⟨1380, none⟩ 0).1]
  decide

end IbisMapD

namespace IbisMapD

/-! ## to_sql and the query context (compiler.py lines 24-29, 51-59)

Modelled from the spec: the base compiler machinery reached from `to_sql`
— `Dialect.make_context`, the query builder, the alias table and
`query.compile()` — is not part of this source slice.  Per spec section
4.5, one fresh `QueryContext` is created per top-level compilation and
threaded through the lowering; aliases `t0`, `t1`, … are assigned
deterministically in traversal order.  We model the pipeline as a
recursive rendering that threads the context's alias counter. -/

structure QueryContext where
  counter : Nat
  always_alias : Bool
deriving Repr, DecidableEq

/-- Modelled from the spec: `MapDDialect.make_context()` creates a fresh
context (`MapDQueryContext` sets `always_alias = False`). -/
def make_context : QueryContext := ⟨0, false⟩

inductive RelExpr where
  | table (name : String)
  | aggregate (source : RelExpr) (metric : String)
  | joinOn (jtype : String) (l r : RelExpr) (pred : String)

/-- Modelled from the spec: lowering plus serialization as one recursive
walk; an aggregate forces a nested subquery whose alias the context
assigns from its counter. -/
def compile_rel : RelExpr → QueryContext → String × QueryContext
  | .table n, ctx => (n, ctx)
  | .aggregate s m, ctx =>
    let r := compile_rel s ctx
    let al := "t" ++ toString r.2.counter
    ("SELECT " ++ m ++ " FROM (" ++ r.1 ++ ") " ++ al,
      ⟨r.2.counter + 1, r.2.always_alias⟩)
  | .joinOn jt l r pred, ctx =>
    let lr := compile_rel l ctx
    let rr := compile_rel r lr.2
    (lr.1 ++ "\n  " ++ jt ++ " " ++ rr.1 ++ "\n    USING " ++ pred, rr.2)

/-- compiler.py lines 24-29: `to_sql` creates a fresh context via
`MapDDialect.make_context()` when none is supplied, then compiles the
query. -/
def to_sql (expr : RelExpr) (context : Option QueryContext) : String :=
  match context with
  | none => (compile_rel expr make_context).1
  | some ctx => (compile_rel expr ctx).1

/-- C8: compilation is deterministic — compiling the same expression tree
twice, each time with a freshly created query context, yields identical
SQL text; supplying no context is the same as supplying a fresh one. -/
theorem to_sql_deterministic (expr : RelExpr) (c1 c2 : QueryContext)
    (h1 : c1 = make_context) (h2 : c2 = make_context) :
    to_sql expr (some c1) = to_sql expr (some c2) ∧
    to_sql expr (some c1) = to_sql expr none := by
  subst h1
  subst h2
  exact ⟨rfl, rfl⟩

/-- C8 witness: a concrete aggregate-over-join tree compiles to the same
text under two fresh contexts. -/
theorem to_sql_deterministic_witness :
    to_sql (.aggregate (.joinOn "JOIN" (.table "a") (.table "b") "k")
        "count") (some ⟨0, false⟩) =
      to_sql (.aggregate (.joinOn "JOIN" (.table "a") (.table "b") "k")
        "count") none :=
  (to_sql_deterministic
    (.aggregate (.joinOn "JOIN" (.table "a") (.table "b") "k") "count")
    ⟨0, false⟩ ⟨0, false⟩ rfl rfl).2

end IbisMapD

namespace IbisMapD

/-! ## String expression builders (expr/tests/test_string.py lines 61-69)

Modelled from the spec: the generic string-expression builders of
`ibis.expr.api` are not part of this source slice — only their test is.
Per spec section 8, `substr(s, start, length)` builds a Substring node
recording start and length as given, `right(s, n)` builds a StrRight node
with `nchars = n`, and `left(s, n)` is built as `substr(s, 0, n)`;
`.equals` is structural tree comparison. -/

inductive StrExpr where
  | column (table : String) (name : String)
  | literal (value : String)
  | substring (arg : StrExpr) (start : Nat) (length : Nat)
  | strRight (arg : StrExpr) (nchars : Nat)

def substr (s : StrExpr) (start length : Nat) : StrExpr :=
  .substring s start length

def left (s : StrExpr) (nchars : Nat) : StrExpr := substr s 0 nchars

def right (s : StrExpr) (nchars : Nat) : StrExpr := .strRight s nchars

/-- Structural tree equality, the IR's `.equals` comparison. -/
def StrExpr.equals : StrExpr → StrExpr → Bool
  | .column t1 n1, .column t2 n2 => t1 == t2 && n1 == n2
  | .literal a, .literal b => a == b
  | .substring a s1 l1, .substring b s2 l2 =>
    StrExpr.equals a b && s1 == s2 && l1 == l2
  | .strRight a n1, .strRight b n2 => StrExpr.equals a b && n1 == n2
  | _, _ => false

theorem strexpr_equals_refl (e : StrExpr) : e.equals e = true := by
  induction e <;> simp [StrExpr.equals, *]

/-- C9: for every string expression and count, the expression built by
`left(s, n)` is structurally equal, under the IR's `.equals` comparison,
to the expression built by `substr(s, 0, n)`. -/
theorem left_equals_substr (s : StrExpr) (n : Nat) :
    ( left s n).equals (substr s 0 n) = true :=
  strexpr_equals_refl (substr s 0 n)

end IbisMapD
